import Mathlib

/-!
Verification of the turn-based narrative game engine of this repository
(`dnd/` package): dice engine, tool surface, session state store, turn
manager, spatial zone graph and the reasoning-orchestrator control flow.

Each Python function that a claim depends on is shallowly embedded as an
executable Lean definition over explicit state.  Randomness is modelled by
an entropy stream `g : Nat -> Nat`; `random.randint lo hi` becomes
`randint lo hi seed`, which realises the library contract that the result
lies in `[lo, hi]`.  The SQLAlchemy-backed tables become lists of rows in
a `DB` structure, and each Python function that opens a transactional
session becomes a pure function from `DB` to `DB`.
-/

/- ===================== Dice engine (dnd/tools.py) ===================== -/

/-- Model of Python `random.randint lo hi`: the seed is reduced into the
inclusive range `[lo, hi]`.  `_parse_and_roll` consumes one seed per die
from an entropy stream. -/
def randint (lo hi : Int) (seed : Nat) : Int :=
  lo + (Int.ofNat seed) % (hi - lo + 1)

/-- Longest digit prefix of a character list together with the rest,
mirroring a greedy `\d+` regex group. -/
def spanDigits (cs : List Char) : List Char × List Char :=
  (cs.takeWhile Char.isDigit, cs.dropWhile Char.isDigit)

/-- Value of a digit string, mirroring Python `int` on a `\d+` match. -/
def digitsToNat (ds : List Char) : Nat :=
  ds.foldl (fun a c => a * 10 + (c.toNat - 48)) 0

/-- The regex `^(\d+)d(\d+)([+-]\d+)?$` from `dnd/tools.py`
(`DICE_PATTERN`), applied to a normalized character list.  Returns
`(count, sides, modifier)` with the groups converted by `int`. -/
def parseDicePattern (cs : List Char) : Option (Nat × Nat × Int) :=
  let (d1, rest) := spanDigits cs
  if d1.isEmpty then none
  else
    match rest with
    | 'd' :: rest2 =>
      let (d2, rest3) := spanDigits rest2
      if d2.isEmpty then none
      else
        match rest3 with
        | [] => some (digitsToNat d1, digitsToNat d2, 0)
        | '+' :: rest4 =>
          let (d3, rest5) := spanDigits rest4
          if d3.isEmpty || !rest5.isEmpty then none
          else some (digitsToNat d1, digitsToNat d2, Int.ofNat (digitsToNat d3))
        | '-' :: rest4 =>
          let (d3, rest5) := spanDigits rest4
          if d3.isEmpty || !rest5.isEmpty then none
          else some (digitsToNat d1, digitsToNat d2, -Int.ofNat (digitsToNat d3))
        | _ => none
    | _ => none

/-- Python `str.lower()`: lowercase every character. -/
def strLower (s : String) : String :=
  ⟨s.data.map Char.toLower⟩

/-- Python `str.strip()` on a character list: drop whitespace at both
ends. -/
def pyStrip (cs : List Char) : List Char :=
  ((cs.dropWhile Char.isWhitespace).reverse.dropWhile Char.isWhitespace).reverse

/-- `notation.strip().lower().replace(" ", "")` from `_parse_and_roll`. -/
def diceNormalize (s : String) : List Char :=
  ((pyStrip s.data).map Char.toLower).filter (fun c => c ≠ ' ')

/-- `_parse_and_roll` from `dnd/tools.py`: normalize, match the dice
pattern, range-check count and sides, then roll `count` dice of
`sides` sides and return `(rolls, modifier, total)`. -/
def parse_and_roll (g : Nat → Nat) (s : String) :
    Except String (List Int × Int × Int) :=
  let norm := diceNormalize s
  match parseDicePattern norm with
  | none =>
    .error ("Invalid dice notation '" ++ String.mk norm ++
      "'. Use format like '1d20', '2d6+3', '1d8-1'.")
  | some (numDice, numSides, modifier) =>
    if numDice < 1 || numDice > 100 then
      .error "Number of dice must be between 1 and 100."
    else if numSides < 2 || numSides > 100 then
      .error "Number of sides must be between 2 and 100."
    else
      let rolls := (List.range numDice).map
        (fun i => randint 1 (Int.ofNat numSides) (g i))
      .ok (rolls, modifier, rolls.sum + modifier)

/- ===================== Data model (dnd/models.py, dnd/orm_models.py) ===================== -/

/-- `GameStatus` from `dnd/models.py`. -/
inductive GameStatus
  | recruiting
  | active
  | finished
  deriving DecidableEq

/-- `EventType` from `dnd/models.py`. -/
inductive EventType
  | narration
  | player_action
  | resolution
  | system
  | dm_clarification
  | player_clarification
  deriving DecidableEq

/-- A row of the `games` table (the fields the verified operations read). -/
structure GameRow where
  id : Nat
  chat_id : Int
  status : GameStatus
  current_player_id : Option Nat
  turn_number : Nat
  deriving DecidableEq

/-- A row of the `players` table (the fields the verified operations read). -/
structure PlayerRow where
  id : Nat
  game_id : Nat
  character_name : String
  character_class : String
  hp : Int
  max_hp : Int
  is_ai : Bool
  deriving DecidableEq

/-- A row of the `game_events` table. -/
structure EventRow where
  id : Nat
  game_id : Nat
  turn_number : Nat
  event_type : EventType
  content : String
  actor_player_id : Option Nat
  deriving DecidableEq

/-- A row of the `zones` table. -/
structure ZoneRow where
  id : Nat
  game_id : Nat
  name : String
  deriving DecidableEq

/-- A row of the `zone_adjacencies` table. -/
structure AdjacencyRow where
  id : Nat
  zone_a_id : Nat
  zone_b_id : Nat
  deriving DecidableEq

/-- A row of the `zone_entities` table. -/
structure ZoneEntityRow where
  id : Nat
  game_id : Nat
  zone_id : Nat
  name : String
  deriving DecidableEq

/-- A row of the `dm_notes` table. -/
structure DmNoteRow where
  id : Nat
  game_id : Nat
  content : String
  deriving DecidableEq

/-- A row of the `campaign_sections` table. -/
structure CampaignSectionRow where
  id : Nat
  game_id : Nat
  section_title : String
  deriving DecidableEq

/-- A row of the `inventory_items` table. -/
structure InventoryItemRow where
  id : Nat
  player_id : Nat
  game_id : Nat
  item_name : String
  quantity : Int
  deriving DecidableEq

/-- A row of the `spell_slots` table. -/
structure SpellSlotsRow where
  id : Nat
  player_id : Nat
  deriving DecidableEq

/-- The relational store behind `dnd/database.py`: one list of rows per
table, plus the autoincrement counter used for fresh surrogate ids. -/
structure DB where
  games : List GameRow
  players : List PlayerRow
  events : List EventRow
  zones : List ZoneRow
  adjacencies : List AdjacencyRow
  zoneEntities : List ZoneEntityRow
  dmNotes : List DmNoteRow
  campaignSections : List CampaignSectionRow
  inventoryItems : List InventoryItemRow
  spellSlots : List SpellSlotsRow
  nextId : Nat
  deriving DecidableEq

/- ===================== Session state store (dnd/database.py) ===================== -/

/-- `get_game_by_id`: the game row together with its players. -/
def get_game_by_id (db : DB) (game_id : Nat) :
    Option (GameRow × List PlayerRow) :=
  match db.games.find? (fun gm => gm.id == game_id) with
  | none => none
  | some gm => some (gm, db.players.filter (fun p => p.game_id == gm.id))

/-- `get_game_by_chat`: the game row for a chat together with its players.
The `chat_id` column carries a UNIQUE constraint (`orm_models.py`), so the
single-row read is modelled by `find?`. -/
def get_game_by_chat (db : DB) (chat_id : Int) :
    Option (GameRow × List PlayerRow) :=
  match db.games.find? (fun gm => gm.chat_id == chat_id) with
  | none => none
  | some gm => some (gm, db.players.filter (fun p => p.game_id == gm.id))

/-- `update_player_hp`: set the row's hp to `max 0 hp`. -/
def update_player_hp (db : DB) (player_id : Nat) (hp : Int) : DB :=
  { db with
    players := db.players.map
      (fun p => if p.id == player_id then { p with hp := max 0 hp } else p) }

/-- `add_event`: append a `game_events` row with a fresh id. -/
def add_event (db : DB) (game_id turn_number : Nat) (event_type : EventType)
    (content : String) (actor_player_id : Option Nat) : DB :=
  { db with
    events := db.events ++
      [⟨db.nextId, game_id, turn_number, event_type, content, actor_player_id⟩],
    nextId := db.nextId + 1 }

/- ===================== apply_damage tool (dnd/tools.py) ===================== -/

/-- The game-log line built by `apply_damage` (damage branch for negative
amounts, healing branch otherwise), quoting HP before and after. -/
def damage_event_content (target : PlayerRow) (amount : Int) (reason : String)
    (new_hp : Int) : String :=
  if amount < 0 then
    target.character_name ++ " takes " ++ toString (-amount) ++ " damage (" ++
      reason ++ "). HP: " ++ toString target.hp ++ " -> " ++ toString new_hp
  else
    target.character_name ++ " heals " ++ toString amount ++ " HP (" ++
      reason ++ "). HP: " ++ toString target.hp ++ " -> " ++ toString new_hp

/-- `apply_damage` from `dnd/tools.py`: look up the game and the target by
case-insensitive character name, clamp the new HP to `[0, max_hp]`, persist
it via `update_player_hp`, and append a `system` event quoting the
before/after HP.  Returns the updated store and the tool's textual result. -/
def apply_damage (db : DB) (game_id : Nat) (player_name : String)
    (amount : Int) (reason : String) : DB × String :=
  match get_game_by_id db game_id with
  | none => (db, "Error: game not found.")
  | some (gm, players) =>
    match players.find?
        (fun p => strLower p.character_name == strLower player_name) with
    | none =>
      (db, "No player named '" ++ player_name ++ "' found. " ++
        "Available players: " ++
        String.intercalate ", " (players.map (fun p => p.character_name)))
    | some target =>
      let new_hp := max 0 (min target.max_hp (target.hp + amount))
      let db1 := update_player_hp db target.id new_hp
      let content := damage_event_content target amount reason new_hp
      let db2 := add_event db1 game_id gm.turn_number EventType.system content none
      (db2, content)

/-- One recorded `apply_damage` tool call, for reasoning about call
sequences. -/
structure DamageCall where
  game_id : Nat
  player_name : String
  amount : Int
  reason : String

/-- A sequence of `apply_damage` tool calls run against the store. -/
def applyDamageSeq (db : DB) (calls : List DamageCall) : DB :=
  calls.foldl
    (fun d c => (apply_damage d c.game_id c.player_name c.amount c.reason).1) db

/- ===================== Turn manager (dnd/game_logic.py) ===================== -/

/-- The in-memory `Game` dataclass from `dnd/models.py` as consumed by
`advance_turn`: identity, active-participant reference, turn counter and
the players in join order. -/
structure Game where
  id : Nat
  chat_id : Int
  current_player_id : Option Nat
  turn_number : Nat
  players : List PlayerRow
  deriving DecidableEq

/-- `advance_turn` from `dnd/game_logic.py`.  With no players it raises;
with no active player it picks the first player and sets turn 1; otherwise
it picks the player cyclically after the current one and increments the
turn.  The `update_game_current_player` write is reflected in the returned
`Game`. -/
def advance_turn (game : Game) : Except String (PlayerRow × Game) :=
  match game.players with
  | [] => .error "No players in game"
  | p0 :: rest =>
    match game.current_player_id with
    | none =>
      .ok (p0, { game with current_player_id := some p0.id, turn_number := 1 })
    | some cid =>
      let newTurn := game.turn_number + 1
      match (p0 :: rest).findIdx? (fun p => p.id == cid) with
      | none =>
        .ok (p0, { game with current_player_id := some p0.id,
                             turn_number := newTurn })
      | some i =>
        let next := (p0 :: rest).get
          ⟨(i + 1) % (p0 :: rest).length, Nat.mod_lt _ (Nat.succ_pos rest.length)⟩
        .ok (next, { game with current_player_id := some next.id,
                               turn_number := newTurn })

/-- Run `advance_turn` for its state effect, keeping the old state when it
errors (used to iterate the round-robin example). -/
def advanceTurnState (game : Game) : Game :=
  match advance_turn game with
  | .ok (_, g') => g'
  | .error _ => game

/-- The player returned by one `advance_turn` call, if any. -/
def advanceTurnPlayer (game : Game) : Option PlayerRow :=
  match advance_turn game with
  | .ok (p, _) => some p
  | .error _ => none

/- ===================== Zone graph (dnd/database.py) ===================== -/

/-- `add_zone_adjacency`: canonicalize the pair (smaller id first) and
insert a `zone_adjacencies` row.  The table carries the UNIQUE constraint
`uq_zone_adjacency (zone_a_id, zone_b_id)` (migration
`006_add_zones.py`), so inserting an already-present canonical pair fails
the flush instead of storing a duplicate row. -/
def add_zone_adjacency (db : DB) (zone_a_id zone_b_id : Nat) :
    Except String (DB × AdjacencyRow) :=
  let a := min zone_a_id zone_b_id
  let b := max zone_a_id zone_b_id
  if db.adjacencies.any (fun r => r.zone_a_id == a && r.zone_b_id == b) then
    .error "UNIQUE constraint failed: uq_zone_adjacency"
  else
    let row : AdjacencyRow := ⟨db.nextId, a, b⟩
    .ok ({ db with adjacencies := db.adjacencies ++ [row],
                   nextId := db.nextId + 1 }, row)

/-- `add_zone_adjacency` as a state transformer: the transaction context
manager rolls the session back when the insert raises, so on failure the
store is unchanged. -/
def runAddZoneAdjacency (db : DB) (zone_a_id zone_b_id : Nat) : DB :=
  match add_zone_adjacency db zone_a_id zone_b_id with
  | .ok (db', _) => db'
  | .error _ => db

/-- A Python-dict insert for the `name_to_id` map of `get_zone_distance`:
overwrite the value when the key exists, append otherwise. -/
def assocInsert (assoc : List (String × Nat)) (key : String) (v : Nat) :
    List (String × Nat) :=
  if assoc.any (fun kv => kv.1 == key) then
    assoc.map (fun kv => if kv.1 == key then (kv.1, v) else kv)
  else assoc ++ [(key, v)]

/-- Dict lookup for the `name_to_id` map. -/
def assocLookup (assoc : List (String × Nat)) (key : String) : Option Nat :=
  (assoc.find? (fun kv => kv.1 == key)).map Prod.snd

/-- The `name_to_id` map of `get_zone_distance`: lowercase zone name to
zone id, over the session's zones. -/
def name_to_id (db : DB) (game_id : Nat) : List (String × Nat) :=
  (db.zones.filter (fun z => z.game_id == game_id)).foldl
    (fun m z => assocInsert m (strLower z.name) z.id) []

/-- `other = adj.zone_b_id if adj.zone_a_id == zid else adj.zone_a_id`
from the adjacency-map construction of `get_zone_distance`. -/
def adjOther (r : AdjacencyRow) (zid : Nat) : Nat :=
  if r.zone_a_id = zid then r.zone_b_id else r.zone_a_id

/-- The adjacency-set construction of `get_zone_distance` for one zone:
walk the `zone_adjacencies` rows touching `zid` and collect the other
endpoint when it belongs to the session (`ids`), set-style (no
duplicates). -/
def addNeighbors (ids : List Nat) (zid : Nat) :
    List AdjacencyRow → List Nat → List Nat
  | [], acc => acc
  | r :: rows, acc =>
    if r.zone_a_id = zid ∨ r.zone_b_id = zid then
      if adjOther r zid ∈ ids ∧ adjOther r zid ∉ acc then
        addNeighbors ids zid rows (acc ++ [adjOther r zid])
      else addNeighbors ids zid rows acc
    else addNeighbors ids zid rows acc

/-- Neighbours of `zid` in the session-scoped adjacency map `adj_map`. -/
def zoneNeighbors (db : DB) (ids : List Nat) (zid : Nat) : List Nat :=
  addNeighbors ids zid db.adjacencies []

/-- The BFS loop of `get_zone_distance`: pop `(current, dist)` from the
queue, return `dist + 1` when the target is among the current node's
neighbours, otherwise enqueue and mark the unvisited neighbours.  The
Python loop terminates because every node is enqueued at most once; here
the same bound is supplied as fuel. -/
def bfsLoop (adjFun : Nat → List Nat) (end_id : Nat) :
    Nat → List (Nat × Nat) → List Nat → Option Nat
  | 0, _, _ => none
  | _ + 1, [], _ => none
  | fuel + 1, (current, dist) :: queue, visited =>
    let ns := adjFun current
    if end_id ∈ ns then some (dist + 1)
    else
      let newNodes := ns.filter (fun n => n ∉ visited)
      bfsLoop adjFun end_id fuel
        (queue ++ newNodes.map (fun n => (n, dist + 1)))
        (visited ++ newNodes)

/-- `get_zone_distance` from `dnd/database.py`: resolve both names through
the session's `name_to_id` map, answer `0` for identical zones, otherwise
run a breadth-first search over the session-scoped adjacency map and
return the hop count, or `none` when either name is unknown or no path
exists. -/
def get_zone_distance (db : DB) (game_id : Nat) (zone_a_name zone_b_name : String) :
    Option Nat :=
  let assoc := name_to_id db game_id
  match assocLookup assoc (strLower zone_a_name),
        assocLookup assoc (strLower zone_b_name) with
  | some start_id, some end_id =>
    if start_id == end_id then some 0
    else
      let ids := assoc.map Prod.snd
      bfsLoop (zoneNeighbors db ids) end_id (ids.length + 1)
        [(start_id, 0)] [start_id]
  | _, _ => none

/-- Reachability along the session-scoped neighbour relation: the
transitive-reflexive closure of "y is a neighbour of x". -/
def ZoneReachable (adjFun : Nat → List Nat) (s e : Nat) : Prop :=
  Relation.ReflTransGen (fun x y => y ∈ adjFun x) s e

/- ===================== delete_game (dnd/database.py) ===================== -/

/-- `delete_game` from `dnd/database.py`: find the chat's game, then delete
depth-first its zone entities, the adjacencies touching its zones, the
zones, DM notes, campaign sections, inventory items, the spell slots of
its players, the events, the players, and finally the game row itself. -/
def delete_game (db : DB) (chat_id : Int) : DB :=
  match db.games.find? (fun gm => gm.chat_id == chat_id) with
  | none => db
  | some gm =>
    let gameZoneIds :=
      (db.zones.filter (fun z => z.game_id == gm.id)).map (fun z => z.id)
    let gamePlayerIds :=
      (db.players.filter (fun p => p.game_id == gm.id)).map (fun p => p.id)
    { db with
      zoneEntities := db.zoneEntities.filter (fun ze => ¬ ze.game_id = gm.id),
      adjacencies := db.adjacencies.filter
        (fun r => ¬ (r.zone_a_id ∈ gameZoneIds ∨ r.zone_b_id ∈ gameZoneIds)),
      zones := db.zones.filter (fun z => ¬ z.game_id = gm.id),
      dmNotes := db.dmNotes.filter (fun n => ¬ n.game_id = gm.id),
      campaignSections := db.campaignSections.filter (fun c => ¬ c.game_id = gm.id),
      inventoryItems := db.inventoryItems.filter (fun it => ¬ it.game_id = gm.id),
      spellSlots := db.spellSlots.filter (fun s => ¬ s.player_id ∈ gamePlayerIds),
      events := db.events.filter (fun e => ¬ e.game_id = gm.id),
      players := db.players.filter (fun p => ¬ p.game_id = gm.id),
      games := db.games.filter (fun x => ¬ x.id = gm.id) }

/- ===================== Reasoning orchestrator (dnd/game_logic.py) ===================== -/

/-- One LangGraph message as inspected by `_extract_tools_used` and
`_extract_response`: either a tool message carrying the tool's name, or an
assistant message carrying its text content. -/
inductive AgentMsg
  | tool (name : String)
  | ai (content : String)
  deriving DecidableEq

/-- Whether a message is a tool message with the given name. -/
def isToolNamed (name : String) (m : AgentMsg) : Bool :=
  match m with
  | .tool n => n == name
  | .ai _ => false

/-- `_extract_tools_used`, specialised to one tool name: how often the
trace invoked it. -/
def toolCount (msgs : List AgentMsg) (name : String) : Nat :=
  (msgs.filter (isToolNamed name)).length

/-- `_needs_dice_retry` from `dnd/game_logic.py`: `apply_damage` was
called but `roll_dice` was not. -/
def needs_dice_retry (msgs : List AgentMsg) : Bool :=
  decide (0 < toolCount msgs "apply_damage") &&
    decide (toolCount msgs "roll_dice" = 0)

/-- The clarification half of `_extract_response`: some tool message is a
`request_clarification` invocation. -/
def clarificationRequested (msgs : List AgentMsg) : Bool :=
  msgs.any (isToolNamed "request_clarification")

/-- Text content of an assistant message, `none` when falsy. -/
def msgAiText (m : AgentMsg) : Option String :=
  match m with
  | .ai c => if c == "" then none else some c
  | .tool _ => none

/-- The text half of `_extract_response`: the last assistant message with
non-empty content, with the fallback narration. -/
def extractText (msgs : List AgentMsg) : String :=
  match msgs.reverse.findSome? msgAiText with
  | some t => t
  | none => "The Dungeon Master is silent..."

/-- `DICE_RETRY_MESSAGE` from `dnd/game_logic.py`. -/
def DICE_RETRY_MESSAGE : String :=
  "You resolved the previous action without rolling dice. " ++
  "You MUST use the roll_dice tool for attack rolls, skill checks, saving throws, " ++
  "and damage rolls. Re-resolve this action properly: " ++
  "announce the check, call roll_dice, then narrate the result based on the roll."

/-- The `DMResponse` dataclass from `dnd/game_logic.py`. -/
structure DMResponse where
  resolved : Bool
  text : String
  deriving DecidableEq

/-- `_invoke_dm_conversational` from `dnd/game_logic.py`, with the DM
agent abstracted as a fallible function from the sent message to its
message trace.  Alongside the `DMResponse`, the list of messages actually
sent to the agent is returned, so retry behaviour is part of the result.
When the first trace resolved (no clarification) but shows damage without
dice, the agent is re-invoked exactly once on the original message with
`DICE_RETRY_MESSAGE` appended, and the second outcome is extracted
unconditionally. -/
def invoke_dm_conversational (agent : String → Except String (List AgentMsg))
    (message : String) : Except String (DMResponse × List String) :=
  match agent message with
  | .error e => .error e
  | .ok msgs =>
    let clar := clarificationRequested msgs
    if !clar && needs_dice_retry msgs then
      let retryText := message ++ "\n\n" ++ DICE_RETRY_MESSAGE
      match agent retryText with
      | .error e => .error e
      | .ok rmsgs =>
        .ok (⟨!(clarificationRequested rmsgs), extractText rmsgs⟩,
          [message, retryText])
    else
      .ok (⟨!clar, extractText msgs⟩, [message])

/-- The message `start_player_action` sends to the DM agent. -/
def startActionMessage (characterName classTitle actionText : String) : String :=
  characterName ++ " (" ++ classTitle ++ ") " ++
  "attempts: \"" ++ actionText ++ "\"\n\n" ++
  "Resolve this action. Use roll_dice for any checks or attack rolls. " ++
  "Use apply_damage if anyone takes damage or receives healing. " ++
  "If the action is ambiguous, use request_clarification to ask the player. " ++
  "Otherwise, resolve and narrate the outcome."

/-- Python `str.title()` restricted to the single-word class names used by
`character_class.value.title()`. -/
def titleWord (s : String) : String :=
  match s.data with
  | [] => ""
  | c :: cs => ⟨c.toUpper :: cs.map Char.toLower⟩

/-- `start_player_action` from `dnd/game_logic.py`: append the
`player_action` event, then invoke the conversational DM on the action
message.  An agent failure propagates after the event write (each
`add_event` runs in its own committed transaction). -/
def start_player_action (agent : String → Except String (List AgentMsg))
    (db : DB) (game : GameRow) (player : PlayerRow) (action_text : String) :
    DB × Except String DMResponse :=
  let db1 := add_event db game.id game.turn_number EventType.player_action
    action_text (some player.id)
  let message := startActionMessage player.character_name
    (titleWord player.character_class) action_text
  match invoke_dm_conversational agent message with
  | .error e => (db1, .error e)
  | .ok (resp, _) => (db1, .ok resp)

/-- The forced-resolution suffix of `continue_player_action`. -/
def FORCE_RESOLVE_SUFFIX : String :=
  "\n\nIMPORTANT: You have asked enough questions. " ++
  "You must resolve this action NOW with the information you have. " ++
  "Do not call request_clarification."

/-- The message body `continue_player_action` sends before the optional
forced-resolution suffix. -/
def continueMessageBase (characterName response_text : String) : String :=
  characterName ++ " responds: \"" ++ response_text ++ "\"\n\n" ++
  "Continue resolving this action based on the player's response and " ++
  "the conversation history in your recent events."

/-- The full message of `continue_player_action`: the suffix is appended
exactly when `exchange_count >= 25`. -/
def continueMessage (characterName response_text : String)
    (exchange_count : Nat) : String :=
  continueMessageBase characterName response_text ++
    (if 25 ≤ exchange_count then FORCE_RESOLVE_SUFFIX else "")

/-- `continue_player_action` from `dnd/game_logic.py`: append the
`player_clarification` event and invoke the conversational DM on the
continuation message (with the forced-resolution suffix once the exchange
count reaches 25). -/
def continue_player_action (agent : String → Except String (List AgentMsg))
    (db : DB) (game : GameRow) (player : PlayerRow) (response_text : String)
    (exchange_count : Nat) : DB × Except String DMResponse :=
  let db1 := add_event db game.id game.turn_number EventType.player_clarification
    response_text (some player.id)
  let message := continueMessage player.character_name response_text exchange_count
  match invoke_dm_conversational agent message with
  | .error e => (db1, .error e)
  | .ok (resp, _) => (db1, .ok resp)

/- ===================== Chat-bot boundary (dnd/dnd_bot.py) ===================== -/

/-- The user-visible outcome of one bot step. -/
inductive BotReply
  | errorText (msg : String)
  | resolution (text : String)
  | clarificationQuestion (text : String)
  deriving DecidableEq

/-- `_handle_action_text` from `dnd/dnd_bot.py`: run
`start_player_action`; on an agent failure reply
"Error resolving action: ..." and end the conversation; on a resolved
response hand off to the resolution path; on a clarification append the
`dm_clarification` event and await the player's reply. -/
def handle_action_text (agent : String → Except String (List AgentMsg))
    (db : DB) (game : GameRow) (player : PlayerRow) (action_text : String) :
    DB × BotReply :=
  match start_player_action agent db game player action_text with
  | (db1, .error e) => (db1, .errorText ("Error resolving action: " ++ e))
  | (db1, .ok resp) =>
    if resp.resolved then (db1, .resolution resp.text)
    else
      let db2 := add_event db1 game.id game.turn_number EventType.dm_clarification
        resp.text none
      (db2, .clarificationQuestion resp.text)

/-- Outcome of one `dnd_action_clarification` handler step: either the
conversation ends, or the chat stays in the AWAITING_CLARIFICATION state
with the stored exchange count. -/
inductive ClarificationOutcome
  | ended (db : DB) (reply : BotReply)
  | awaiting (db : DB) (exchange_count : Nat) (question : String)
  deriving DecidableEq

/-- `dnd_action_clarification` from `dnd/dnd_bot.py` (one handler
invocation): run `continue_player_action` with the stored exchange count;
on failure reply with the error and end; on a resolved response end with
the resolution; otherwise append the `dm_clarification` event, increment
the stored exchange count and stay in AWAITING_CLARIFICATION. -/
def dnd_action_clarification (agent : String → Except String (List AgentMsg))
    (db : DB) (game : GameRow) (player : PlayerRow) (response_text : String)
    (exchange_count : Nat) : ClarificationOutcome :=
  match continue_player_action agent db game player response_text exchange_count with
  | (db1, .error e) => .ended db1 (.errorText ("Error: " ++ e))
  | (db1, .ok resp) =>
    if resp.resolved then .ended db1 (.resolution resp.text)
    else
      let db2 := add_event db1 game.id game.turn_number EventType.dm_clarification
        resp.text none
      .awaiting db2 (exchange_count + 1) resp.text

/- ===================== AI player loop (dnd/ai_player.py) ===================== -/

/-- The clarification loop of `auto_play_turn`
(`while not dm_response.resolved and exchange_count < 3`), written with
the remaining loop budget `3 - exchange_count` as explicit fuel.  The
oracle maps each exchange number to the `DMResponse` of the corresponding
`continue_player_action` call. -/
def aiClarificationLoop (oracle : Nat → DMResponse) :
    DMResponse → Nat → Nat → DMResponse × Nat
  | resp, count, 0 => (resp, count)
  | resp, count, fuel + 1 =>
    if resp.resolved then (resp, count)
    else aiClarificationLoop oracle (oracle (count + 1)) (count + 1) fuel

/-- The clarification phase of `auto_play_turn` from `dnd/ai_player.py`:
run the bounded loop starting at exchange count 0, then force
`resolved := true` when the loop ended with an unresolved response. -/
def auto_play_clarification (oracle : Nat → DMResponse)
    (initial : DMResponse) : DMResponse × Nat :=
  let rn := aiClarificationLoop oracle initial 0 3
  ((if rn.1.resolved then rn.1 else { rn.1 with resolved := true }), rn.2)

/- ===================== Claim-side predicate and fixtures ===================== -/

/-- The trigger condition exactly as the claim words it (for comparison
with `needs_dice_retry`): some `apply_damage` invocation has no
`roll_dice` invocation before it in the same trace. -/
def specDamageWithoutPriorRoll : List AgentMsg → Bool
  | [] => false
  | .tool n :: rest =>
    if n == "apply_damage" then true
    else if n == "roll_dice" then false
    else specDamageWithoutPriorRoll rest
  | .ai _ :: rest => specDamageWithoutPriorRoll rest

/-- Trace in which damage is applied and clarification requested in the
same cycle. -/
def cexTraceClarify : List AgentMsg :=
  [.tool "apply_damage", .tool "request_clarification", .ai "Which target?"]

/-- Trace in which damage is applied before the dice roll. -/
def cexTraceOrder : List AgentMsg :=
  [.tool "apply_damage", .tool "roll_dice", .ai "A solid hit!"]

/-- A concrete game row used by the witnesses. -/
def exGame : GameRow := ⟨1, 100, GameStatus.active, some 1, 3⟩

/-- A concrete player at HP 12 of max 20. -/
def exAra : PlayerRow := ⟨1, 1, "Ara", "warrior", 12, 20, false⟩

/-- A concrete store with one game and one player. -/
def exDB : DB := ⟨[exGame], [exAra], [], [], [], [], [], [], [], [], 10⟩

/-- A concrete store with a three-zone chain and one isolated zone. -/
def zoneDB : DB :=
  ⟨[exGame], [], [],
   [⟨1, 1, "cave"⟩, ⟨2, 1, "hall"⟩, ⟨3, 1, "pit"⟩, ⟨4, 1, "isle"⟩],
   [⟨5, 1, 2⟩, ⟨6, 2, 3⟩], [], [], [], [], [], 20⟩

/-- A concrete store populated in every session-owned table, for the
cascade-delete witness. -/
def fullDB : DB :=
  ⟨[exGame, ⟨2, 200, GameStatus.recruiting, none, 0⟩],
   [exAra, ⟨7, 2, "Bob", "mage", 9, 9, false⟩],
   [⟨30, 1, 1, EventType.narration, "intro", none⟩],
   [⟨1, 1, "cave"⟩, ⟨2, 1, "hall"⟩],
   [⟨5, 1, 2⟩],
   [⟨40, 1, 1, "Goblin"⟩],
   [⟨50, 1, "secret door"⟩],
   [⟨60, 1, "Chapter 1"⟩],
   [⟨70, 1, 1, "rope", 1⟩],
   [⟨80, 1⟩],
   90⟩

/-- A DM agent that requests clarification on every invocation. -/
def stubbornAgent : String → Except String (List AgentMsg) :=
  fun _ => .ok [.tool "request_clarification", .ai "And what else?"]

/-- Participant A of the round-robin example. -/
def pA : PlayerRow := ⟨1, 1, "Alice", "warrior", 20, 20, false⟩

/-- Participant B of the round-robin example. -/
def pB : PlayerRow := ⟨2, 1, "Bo", "mage", 15, 15, false⟩

/-- Participant C of the round-robin example. -/
def pC : PlayerRow := ⟨3, 1, "Cy", "rogue", 18, 18, false⟩

/-- A game with participants [A, B, C] in join order and no active
player yet. -/
def exGameABC : Game := ⟨1, 100, none, 0, [pA, pB, pC]⟩

/-- The stored exchange count after a `dnd_action_clarification` step, if
the conversation stayed in the AWAITING_CLARIFICATION state. -/
def clarificationOutcomeCount : ClarificationOutcome → Option Nat
  | .ended _ _ => none
  | .awaiting _ c _ => some c

/-- An agent trace family that resolves with damage but no dice on the
original message and complies (rolls first) on any other message — used
to exercise the single enforcement retry. -/
def retryAgentTrace (m : String) : List AgentMsg :=
  if m == "act" then [.tool "apply_damage", .ai "You take 5 damage"]
  else [.tool "roll_dice", .tool "apply_damage", .ai "Rolled and resolved"]

/-- Well-formedness of the player table: primary keys are distinct (the
`id` column is the primary key) and every row satisfies the participant
invariant `0 <= hp <= max_hp`. -/
def PlayersInv (db : DB) : Prop :=
  db.players.Pairwise (fun p q => p.id ≠ q.id) ∧
  ∀ p ∈ db.players, 0 ≤ p.hp ∧ p.hp ≤ p.max_hp

/- ===================== Helper lemmas ===================== -/

lemma randint_bounds (lo hi : Int) (seed : Nat) (h : lo ≤ hi) :
    lo ≤ randint lo hi seed ∧ randint lo hi seed ≤ hi := by
  unfold randint
  have hM : (0 : Int) < hi - lo + 1 := by omega
  have h1 : 0 ≤ (Int.ofNat seed) % (hi - lo + 1) := Int.emod_nonneg _ (by omega)
  have h2 : (Int.ofNat seed) % (hi - lo + 1) < hi - lo + 1 :=
    Int.emod_lt_of_pos _ hM
  omega

/- ===================== C2: valid dice notation ===================== -/

/-- Claim C2: for every notation string accepted by the dice grammar with
`1 <= count <= 100` and `2 <= sides <= 100`, `_parse_and_roll` returns
exactly `count` rolls, each within `[1, sides]`, the parsed modifier, and
a total equal to the sum of the rolls plus the modifier — for every
entropy stream. -/
theorem dice_roll_valid_spec
    (g : Nat → Nat) (w : String) (n s : Nat) (m : Int)
    (hparse : parseDicePattern (diceNormalize w) = some (n, s, m))
    (h1 : 1 ≤ n) (h2 : n ≤ 100) (h3 : 2 ≤ s) (h4 : s ≤ 100) :
    ∃ rolls : List Int,
      parse_and_roll g w = .ok (rolls, m, rolls.sum + m) ∧
      rolls.length = n ∧
      ∀ r ∈ rolls, 1 ≤ r ∧ r ≤ (s : Int) := by
  refine ⟨(List.range n).map (fun i => randint 1 (Int.ofNat s) (g i)), ?_, ?_, ?_⟩
  · have hn1 : ¬ n < 1 := by omega
    have hn2 : ¬ n > 100 := by omega
    have hs1 : ¬ s < 2 := by omega
    have hs2 : ¬ s > 100 := by omega
    simp [parse_and_roll, hparse, hn1, hn2, hs1, hs2]
  · simp
  · intro r hr
    simp only [List.mem_map, List.mem_range] at hr
    obtain ⟨i, _, rfl⟩ := hr
    have : (1 : Int) ≤ Int.ofNat s := by
      simp only [Int.ofNat_eq_coe]
      exact_mod_cast Nat.one_le_of_lt h3
    simpa using randint_bounds 1 (Int.ofNat s) (g i) this

/-- Witness for C2 at the concrete notation `2d6+3`. -/
theorem dice_roll_valid_spec_witness :
    ∃ rolls : List Int,
      parse_and_roll (fun _ => 5) "2d6+3" = .ok (rolls, 3, rolls.sum + 3) ∧
      rolls.length = 2 ∧
      ∀ r ∈ rolls, 1 ≤ r ∧ r ≤ (6 : Int) :=
  dice_roll_valid_spec (fun _ => 5) "2d6+3" 2 6 3 rfl
    (by decide) (by decide) (by decide) (by decide)

/- ===================== C8: invalid dice notation ===================== -/

/-- Claim C8: every invalid dice notation is rejected by
`_parse_and_roll` with an error naming the offending constraint, for
every entropy stream: any string whose normalized form does not match
the dice pattern fails with the malformed-notation message naming the
grammar; any matching string with an out-of-range count fails with the
count-constraint message; any matching string with an in-range count and
an out-of-range sides value fails with the sides-constraint message —
and in particular `0d6`, `101d6`, `1d1` and `abc` fail as enumerated. -/
theorem dice_roll_invalid_spec (g : Nat → Nat) :
    (∀ w, parseDicePattern (diceNormalize w) = none →
       parse_and_roll g w =
         .error ("Invalid dice notation '" ++ String.mk (diceNormalize w) ++
           "'. Use format like '1d20', '2d6+3', '1d8-1'.")) ∧
    (∀ w n s m, parseDicePattern (diceNormalize w) = some (n, s, m) →
       (n < 1 ∨ n > 100) →
       parse_and_roll g w =
         .error "Number of dice must be between 1 and 100.") ∧
    (∀ w n s m, parseDicePattern (diceNormalize w) = some (n, s, m) →
       1 ≤ n → n ≤ 100 → (s < 2 ∨ s > 100) →
       parse_and_roll g w =
         .error "Number of sides must be between 2 and 100.") ∧
    parse_and_roll g "0d6" =
      .error "Number of dice must be between 1 and 100." ∧
    parse_and_roll g "101d6" =
      .error "Number of dice must be between 1 and 100." ∧
    parse_and_roll g "1d1" =
      .error "Number of sides must be between 2 and 100." ∧
    parse_and_roll g "abc" =
      .error "Invalid dice notation 'abc'. Use format like '1d20', '2d6+3', '1d8-1'." := by
  refine ⟨?_, ?_, ?_, rfl, rfl, rfl, rfl⟩
  · intro w hparse
    simp [parse_and_roll, hparse]
  · intro w n s m hparse hrange
    rcases hrange with h1 | h1 <;> simp [parse_and_roll, hparse, h1]
  · intro w n s m hparse hn1 hn2 hrange
    have ha : ¬ n < 1 := by omega
    have hb : ¬ n > 100 := by omega
    rcases hrange with h1 | h1 <;>
      simp [parse_and_roll, hparse, ha, hb, h1]

/-- Witness for C8: the three universal parts instantiated at `abc`
(malformed), `0d6` (count constraint) and `1d1` (sides constraint). -/
theorem dice_roll_invalid_spec_witness :
    parse_and_roll (fun _ => 5) "abc" =
      .error ("Invalid dice notation '" ++ String.mk (diceNormalize "abc") ++
        "'. Use format like '1d20', '2d6+3', '1d8-1'.") ∧
    parse_and_roll (fun _ => 5) "0d6" =
      .error "Number of dice must be between 1 and 100." ∧
    parse_and_roll (fun _ => 5) "1d1" =
      .error "Number of sides must be between 2 and 100." :=
  ⟨(dice_roll_invalid_spec (fun _ => 5)).1 "abc" rfl,
   (dice_roll_invalid_spec (fun _ => 5)).2.1 "0d6" 0 6 0 rfl
     (Or.inl (by decide)),
   (dice_roll_invalid_spec (fun _ => 5)).2.2.1 "1d1" 1 1 0 rfl
     (by decide) (by decide) (Or.inl (by decide))⟩

/- ===================== C1: apply_damage clamps HP and logs ===================== -/

lemma get_game_by_id_players (db : DB) (gid : Nat) (gm : GameRow)
    (players : List PlayerRow)
    (h : get_game_by_id db gid = some (gm, players)) :
    players = db.players.filter (fun p => p.game_id == gm.id) := by
  unfold get_game_by_id at h
  cases hg : db.games.find? (fun x => x.id == gid) with
  | none => rw [hg] at h; exact absurd h (by simp)
  | some gm2 =>
    rw [hg] at h
    simp only [Option.some.injEq, Prod.mk.injEq] at h
    rw [← h.1, ← h.2]

lemma apply_damage_preserves_inv (db : DB) (gid : Nat) (nm : String)
    (am : Int) (rs : String) (h : PlayersInv db) :
    PlayersInv (apply_damage db gid nm am rs).1 := by
  obtain ⟨hpw, hbnd⟩ := h
  rcases hg : get_game_by_id db gid with _ | ⟨gm, players⟩
  · unfold apply_damage
    rw [hg]
    exact ⟨hpw, hbnd⟩
  · rcases ht : players.find?
        (fun p => strLower p.character_name == strLower nm) with _ | target
    · unfold apply_damage
      rw [hg]
      simp only [ht]
      exact ⟨hpw, hbnd⟩
    · have htmem : target ∈ db.players := by
        have h1 : target ∈ players := List.mem_of_find?_eq_some ht
        rw [get_game_by_id_players db gid gm players hg] at h1
        exact List.mem_of_mem_filter h1
      have htb := hbnd target htmem
      unfold apply_damage
      rw [hg]
      simp only [ht, update_player_hp, add_event]
      constructor
      · refine List.Pairwise.map _ ?_ hpw
        intro a b hab
        by_cases ha : a.id = target.id <;> by_cases hb : b.id = target.id <;>
          simp [ha, hb, hab] <;> omega
      · intro p' hp'
        simp only [List.mem_map] at hp'
        obtain ⟨p, hpmem, rfl⟩ := hp'
        by_cases hid : p.id = target.id
        · have hpt : p = target := by
            by_contra hne
            exact List.Pairwise.forall
              (fun x y hxy => fun e => hxy e.symm) hpw hpmem htmem hne hid
          have h0A : (0 : Int) ≤ target.max_hp := le_trans htb.1 htb.2
          have hle : max 0 (max 0 (min target.max_hp (target.hp + am))) ≤
              target.max_hp := max_le h0A (max_le h0A (min_le_left _ _))
          simp only [hid, beq_self_eq_true, if_pos]
          exact ⟨le_max_left _ _, by simpa [hpt] using hle⟩
        · have hfalse : (p.id == target.id) = false := by
            simpa using hid
          simp only [hfalse, Bool.false_eq_true, if_false]
          exact hbnd p hpmem

/-- Claim C1: every `apply_damage` call stores a clamped HP, so any
sequence of calls keeps every participant's HP within `[0, max_hp]`; a
participant at HP 12 hit for 100 drops to exactly 0 and a subsequent
+100 heal lands exactly at max HP; and each successful call appends one
`system` event whose content is the before/after HP line. -/
theorem apply_damage_hp_clamped_and_logged :
    (∀ db calls, PlayersInv db → PlayersInv (applyDamageSeq db calls)) ∧
    (∀ db gid nm am rs gm players target,
        get_game_by_id db gid = some (gm, players) →
        players.find? (fun p => strLower p.character_name == strLower nm) =
          some target →
        (apply_damage db gid nm am rs).1.events =
          db.events ++ [⟨db.nextId, gid, gm.turn_number, EventType.system,
            damage_event_content target am rs
              (max 0 (min target.max_hp (target.hp + am))), none⟩]) ∧
    (apply_damage exDB 1 "Ara" (-100) "trap").1.players.map
      (fun p => p.hp) = [0] ∧
    (apply_damage (apply_damage exDB 1 "Ara" (-100) "trap").1
        1 "Ara" 100 "potion").1.players.map
      (fun p => (p.hp, p.max_hp)) = [(20, 20)] ∧
    (apply_damage (apply_damage exDB 1 "Ara" (-100) "trap").1
        1 "Ara" 100 "potion").1.events.map
      (fun e => e.event_type) = [EventType.system, EventType.system] := by
  refine ⟨?_, ?_, rfl, rfl, rfl⟩
  · intro db calls
    induction calls generalizing db with
    | nil => exact fun h => h
    | cons c rest ih =>
      intro h
      exact ih _ (apply_damage_preserves_inv db c.game_id c.player_name
        c.amount c.reason h)
  · intro db gid nm am rs gm players target hg ht
    unfold apply_damage
    rw [hg]
    simp only [ht, update_player_hp, add_event]

/-- Witness for C1: the invariant-preservation and event-append parts
instantiated on the concrete one-player store. -/
theorem apply_damage_hp_clamped_and_logged_witness :
    PlayersInv (applyDamageSeq exDB
      [⟨1, "Ara", -100, "trap"⟩, ⟨1, "Ara", 100, "potion"⟩]) ∧
    (apply_damage exDB 1 "Ara" (-7) "arrow").1.events =
      exDB.events ++ [⟨exDB.nextId, 1, exGame.turn_number, EventType.system,
        damage_event_content exAra (-7) "arrow"
          (max 0 (min exAra.max_hp (exAra.hp + (-7)))), none⟩] :=
  ⟨apply_damage_hp_clamped_and_logged.1 exDB
      [⟨1, "Ara", -100, "trap"⟩, ⟨1, "Ara", 100, "potion"⟩]
      ⟨by decide, by decide⟩,
   apply_damage_hp_clamped_and_logged.2.1 exDB 1 "Ara" (-7) "arrow"
      exGame [exAra] exAra rfl rfl⟩

/- ===================== C9: advance_turn round-robin ===================== -/

/-- Claim C9: `advance_turn` is round-robin over the players in join
order: with no active player it returns the first player and sets the
turn counter to 1; with an active player at index `i` it returns the
player at index `(i + 1) mod n` and increments the turn counter; and on
the concrete roster [A, B, C] an initial call returns A and three
successive calls return B, C, A. -/
theorem advance_turn_round_robin :
    (∀ game p0 rest, game.players = p0 :: rest →
       game.current_player_id = none →
       advance_turn game = .ok (p0,
         { game with current_player_id := some p0.id, turn_number := 1 })) ∧
    (∀ game p0 rest cid i, game.players = p0 :: rest →
       game.current_player_id = some cid →
       (p0 :: rest).findIdx? (fun p => p.id == cid) = some i →
       ∃ next g', advance_turn game = .ok (next, g') ∧
         (p0 :: rest).get? ((i + 1) % (p0 :: rest).length) = some next ∧
         g'.current_player_id = some next.id ∧
         g'.turn_number = game.turn_number + 1) ∧
    (advanceTurnPlayer exGameABC = some pA ∧
     (advanceTurnState exGameABC).turn_number = 1 ∧
     advanceTurnPlayer (advanceTurnState exGameABC) = some pB ∧
     advanceTurnPlayer (advanceTurnState (advanceTurnState exGameABC)) =
       some pC ∧
     advanceTurnPlayer (advanceTurnState (advanceTurnState
       (advanceTurnState exGameABC))) = some pA ∧
     (advanceTurnState (advanceTurnState (advanceTurnState
       (advanceTurnState exGameABC)))).turn_number = 4) := by
  refine ⟨?_, ?_, by decide⟩
  · intro game p0 rest hpl hcur
    unfold advance_turn
    rw [hpl, hcur]
  · intro game p0 rest cid i hpl hcur hidx
    have hlt : (i + 1) % (p0 :: rest).length < (p0 :: rest).length :=
      Nat.mod_lt _ (Nat.succ_pos rest.length)
    refine ⟨(p0 :: rest).get ⟨(i + 1) % (p0 :: rest).length, hlt⟩,
      { game with
          current_player_id :=
            some ((p0 :: rest).get ⟨(i + 1) % (p0 :: rest).length, hlt⟩).id,
          turn_number := game.turn_number + 1 },
      ?_, List.get?_eq_get hlt, rfl, rfl⟩
    unfold advance_turn
    rw [hpl, hcur]
    simp only [hidx]

/-- Witness for C9: both general parts instantiated on the concrete
roster, active participant B (index 1), successor C. -/
theorem advance_turn_round_robin_witness :
    (advance_turn { exGameABC with current_player_id := none } =
      .ok (pA,
        { exGameABC with current_player_id := some pA.id, turn_number := 1 })) ∧
    (∃ next g',
      advance_turn
          { exGameABC with current_player_id := some 2, turn_number := 2 } =
        .ok (next, g') ∧
      [pA, pB, pC].get? ((1 + 1) % [pA, pB, pC].length) = some next ∧
      g'.current_player_id = some next.id ∧
      g'.turn_number = 3) :=
  ⟨advance_turn_round_robin.1 _ pA [pB, pC] rfl rfl,
   advance_turn_round_robin.2.1 _ pA [pB, pC] 2 1 rfl rfl (by decide)⟩

/- ===================== C6: adjoin idempotent and order-independent ===================== -/

/-- Claim C6: `add_zone_adjacency` is order-independent (swapping the two
zone ids gives the identical operation), the stored row is canonical with
the smaller id first, and repeating the call — in either argument order —
leaves the edge set exactly as after a single call, because the canonical
duplicate is rejected by the unique constraint and the transaction rolls
back. -/
theorem add_zone_adjacency_idempotent :
    (∀ db x y, add_zone_adjacency db x y = add_zone_adjacency db y x) ∧
    (∀ db x y, runAddZoneAdjacency (runAddZoneAdjacency db x y) x y =
       runAddZoneAdjacency db x y) ∧
    (∀ db x y, runAddZoneAdjacency (runAddZoneAdjacency db x y) y x =
       runAddZoneAdjacency db x y) ∧
    (∀ db x y db' row, add_zone_adjacency db x y = .ok (db', row) →
       row.zone_a_id = min x y ∧ row.zone_b_id = max x y ∧
       db'.adjacencies = db.adjacencies ++ [row]) := by
  refine ⟨?_, ?_, ?_, ?_⟩
  · intro db x y
    unfold add_zone_adjacency
    rw [Nat.min_comm, Nat.max_comm]
  · intro db x y
    unfold runAddZoneAdjacency add_zone_adjacency
    by_cases hdup : (db.adjacencies.any
        (fun r => r.zone_a_id == min x y && r.zone_b_id == max x y)) = true
    · simp [hdup]
    · simp [hdup]
  · intro db x y
    unfold runAddZoneAdjacency add_zone_adjacency
    rw [Nat.min_comm y x, Nat.max_comm y x]
    by_cases hdup : (db.adjacencies.any
        (fun r => r.zone_a_id == min x y && r.zone_b_id == max x y)) = true
    · simp [hdup]
    · simp [hdup]
  · intro db x y db' row h
    unfold add_zone_adjacency at h
    by_cases hdup : (db.adjacencies.any
        (fun r => r.zone_a_id == min x y && r.zone_b_id == max x y)) = true
    · rw [if_pos hdup] at h
      cases h
    · rw [if_neg hdup] at h
      simp only [Except.ok.injEq, Prod.mk.injEq] at h
      obtain ⟨hdb, hrow⟩ := h
      subst hdb
      subst hrow
      exact ⟨rfl, rfl, rfl⟩

/-- Witness for C6's canonical-row part at a concrete insert (ids passed
in descending order). -/
theorem add_zone_adjacency_idempotent_witness :
    (AdjacencyRow.mk 20 1 3).zone_a_id = min 3 1 ∧
    (AdjacencyRow.mk 20 1 3).zone_b_id = max 3 1 ∧
    (runAddZoneAdjacency zoneDB 3 1).adjacencies =
      zoneDB.adjacencies ++ [AdjacencyRow.mk 20 1 3] :=
  add_zone_adjacency_idempotent.2.2.2 zoneDB 3 1
    (runAddZoneAdjacency zoneDB 3 1) (AdjacencyRow.mk 20 1 3) rfl

/- ===================== C10: delete_game cascade ===================== -/

/-- Claim C10: deleting the session of a chat removes every row owned by
that session from every owned table — events, players, zones, zone
entities, DM notes, campaign sections, inventory items, the spell slots
of its players, and the adjacencies touching its zones — and looking the
session up by chat afterwards returns not-found.  The `chat_id` UNIQUE
constraint is the pairwise hypothesis. -/
theorem delete_game_cascades :
    ∀ db chat gm,
      db.games.Pairwise (fun g1 g2 => g1.chat_id ≠ g2.chat_id) →
      db.games.find? (fun x => x.chat_id == chat) = some gm →
      (∀ e ∈ (delete_game db chat).events, e.game_id ≠ gm.id) ∧
      (∀ p ∈ (delete_game db chat).players, p.game_id ≠ gm.id) ∧
      (∀ z ∈ (delete_game db chat).zones, z.game_id ≠ gm.id) ∧
      (∀ ze ∈ (delete_game db chat).zoneEntities, ze.game_id ≠ gm.id) ∧
      (∀ n ∈ (delete_game db chat).dmNotes, n.game_id ≠ gm.id) ∧
      (∀ c ∈ (delete_game db chat).campaignSections, c.game_id ≠ gm.id) ∧
      (∀ it ∈ (delete_game db chat).inventoryItems, it.game_id ≠ gm.id) ∧
      (∀ s ∈ (delete_game db chat).spellSlots, ∀ p ∈ db.players,
         p.game_id = gm.id → s.player_id ≠ p.id) ∧
      (∀ r ∈ (delete_game db chat).adjacencies, ∀ z ∈ db.zones,
         z.game_id = gm.id → r.zone_a_id ≠ z.id ∧ r.zone_b_id ≠ z.id) ∧
      get_game_by_chat (delete_game db chat) chat = none := by
  intro db chat gm hpw hfind
  have hmem : gm ∈ db.games := List.mem_of_find?_eq_some hfind
  have hgm_chat : gm.chat_id = chat := by
    have h := List.find?_some hfind
    simpa using h
  unfold delete_game
  rw [hfind]
  refine ⟨?_, ?_, ?_, ?_, ?_, ?_, ?_, ?_, ?_, ?_⟩
  · intro e he
    simp only [List.mem_filter, decide_not, Bool.not_eq_eq_eq_not,
      Bool.not_true, decide_eq_false_iff_not] at he
    exact he.2
  · intro p hp
    simp only [List.mem_filter, decide_not, Bool.not_eq_eq_eq_not,
      Bool.not_true, decide_eq_false_iff_not] at hp
    exact hp.2
  · intro z hz
    simp only [List.mem_filter, decide_not, Bool.not_eq_eq_eq_not,
      Bool.not_true, decide_eq_false_iff_not] at hz
    exact hz.2
  · intro ze hze
    simp only [List.mem_filter, decide_not, Bool.not_eq_eq_eq_not,
      Bool.not_true, decide_eq_false_iff_not] at hze
    exact hze.2
  · intro n hn
    simp only [List.mem_filter, decide_not, Bool.not_eq_eq_eq_not,
      Bool.not_true, decide_eq_false_iff_not] at hn
    exact hn.2
  · intro c hc
    simp only [List.mem_filter, decide_not, Bool.not_eq_eq_eq_not,
      Bool.not_true, decide_eq_false_iff_not] at hc
    exact hc.2
  · intro it hit
    simp only [List.mem_filter, decide_not, Bool.not_eq_eq_eq_not,
      Bool.not_true, decide_eq_false_iff_not] at hit
    exact hit.2
  · intro s hs p hp hpg heq
    simp only [List.mem_filter, decide_not, Bool.not_eq_eq_eq_not,
      Bool.not_true, decide_eq_false_iff_not] at hs
    refine hs.2 ?_
    rw [heq]
    exact List.mem_map_of_mem _
      (List.mem_filter.mpr ⟨hp, by simp [hpg]⟩)
  · intro r hr z hz hzg
    simp only [List.mem_filter, decide_not, Bool.not_eq_eq_eq_not,
      Bool.not_true, decide_eq_false_iff_not] at hr
    have hzmem : z.id ∈
        (db.zones.filter (fun x => x.game_id == gm.id)).map (fun x => x.id) :=
      List.mem_map_of_mem _ (List.mem_filter.mpr ⟨hz, by simp [hzg]⟩)
    constructor
    · intro hcontra
      exact hr.2 (Or.inl (hcontra ▸ hzmem))
    · intro hcontra
      exact hr.2 (Or.inr (hcontra ▸ hzmem))
  · have hnone : ((db.games.filter (fun x => ¬ x.id = gm.id)).find?
        (fun x => x.chat_id == chat)) = none := by
      rw [List.find?_eq_none]
      intro x hx hbeq
      simp only [List.mem_filter, decide_not, Bool.not_eq_eq_eq_not,
        Bool.not_true, decide_eq_false_iff_not] at hx
      have hchat : x.chat_id = chat := by simpa using hbeq
      by_cases hxg : x = gm
      · exact hx.2 (by rw [hxg])
      · exact List.Pairwise.forall (fun a b h => fun e => h e.symm)
          hpw hx.1 hmem hxg (hchat.trans hgm_chat.symm)
    simp only [get_game_by_chat]
    rw [hnone]

/-- Witness for C10: on a store populated in every owned table, deleting
chat 100's session makes the session lookup return not-found. -/
theorem delete_game_cascades_witness :
    get_game_by_chat (delete_game fullDB 100) 100 = none :=
  (delete_game_cascades fullDB 100 exGame (by decide)
    rfl).2.2.2.2.2.2.2.2.2

/- ===================== C5: zone distance BFS ===================== -/

lemma bfsLoop_zero (adjFun : Nat → List Nat) (e : Nat)
    (queue : List (Nat × Nat)) (visited : List Nat) :
    bfsLoop adjFun e 0 queue visited = none := rfl

lemma bfsLoop_nil (adjFun : Nat → List Nat) (e fuel : Nat)
    (visited : List Nat) :
    bfsLoop adjFun e (fuel + 1) [] visited = none := rfl

lemma bfsLoop_cons (adjFun : Nat → List Nat) (e fuel c d : Nat)
    (queue : List (Nat × Nat)) (visited : List Nat) :
    bfsLoop adjFun e (fuel + 1) ((c, d) :: queue) visited =
      if e ∈ adjFun c then some (d + 1)
      else bfsLoop adjFun e fuel
        (queue ++ ((adjFun c).filter (fun n => n ∉ visited)).map
          (fun n => (n, d + 1)))
        (visited ++ (adjFun c).filter (fun n => n ∉ visited)) := rfl

lemma mem_addNeighbors_mono (ids : List Nat) (zid x : Nat) :
    ∀ rows acc, x ∈ acc → x ∈ addNeighbors ids zid rows acc := by
  intro rows
  induction rows with
  | nil => intro acc h; exact h
  | cons r rest ih =>
    intro acc h
    unfold addNeighbors
    by_cases h1 : r.zone_a_id = zid ∨ r.zone_b_id = zid
    · rw [if_pos h1]
      by_cases h2 : adjOther r zid ∈ ids ∧ adjOther r zid ∉ acc
      · rw [if_pos h2]
        exact ih _ (List.mem_append_left _ h)
      · rw [if_neg h2]
        exact ih _ h
    · rw [if_neg h1]
      exact ih _ h

lemma mem_addNeighbors_of_edge (ids : List Nat) (zid e : Nat) (he : e ∈ ids) :
    ∀ rows acc r, r ∈ rows →
      ((r.zone_a_id = zid ∧ r.zone_b_id = e) ∨
       (r.zone_b_id = zid ∧ r.zone_a_id = e)) →
      e ∈ addNeighbors ids zid rows acc := by
  intro rows
  induction rows with
  | nil => intro acc r h; cases h
  | cons r0 rest ih =>
    intro acc r hmem hr
    rcases List.mem_cons.mp hmem with heq | hmem2
    · subst heq
      have htouch : r.zone_a_id = zid ∨ r.zone_b_id = zid := by tauto
      have hother : adjOther r zid = e := by
        unfold adjOther
        rcases hr with ⟨h1, h2⟩ | ⟨h1, h2⟩
        · rw [if_pos h1]; exact h2
        · by_cases h3 : r.zone_a_id = zid
          · rw [if_pos h3]; omega
          · rw [if_neg h3]; exact h2
      unfold addNeighbors
      rw [if_pos htouch, hother]
      by_cases h2 : e ∈ ids ∧ e ∉ acc
      · rw [if_pos h2]
        exact mem_addNeighbors_mono ids zid e rest _
          (List.mem_append_right _ (List.mem_singleton.mpr rfl))
      · rw [if_neg h2]
        have hacc : e ∈ acc := by tauto
        exact mem_addNeighbors_mono ids zid e rest _ hacc
    · unfold addNeighbors
      by_cases h1 : r0.zone_a_id = zid ∨ r0.zone_b_id = zid
      · rw [if_pos h1]
        by_cases h2 : adjOther r0 zid ∈ ids ∧ adjOther r0 zid ∉ acc
        · rw [if_pos h2]
          exact ih _ r hmem2 hr
        · rw [if_neg h2]
          exact ih _ r hmem2 hr
      · rw [if_neg h1]
        exact ih _ r hmem2 hr

lemma assocLookup_mem_values (assoc : List (String × Nat)) (k : String)
    (v : Nat) (h : assocLookup assoc k = some v) : v ∈ assoc.map Prod.snd := by
  unfold assocLookup at h
  cases hf : assoc.find? (fun kv => kv.1 == k) with
  | none => rw [hf] at h; cases h
  | some kv =>
    rw [hf] at h
    simp only [Option.map_some', Option.some.injEq] at h
    have hmem : kv ∈ assoc := List.mem_of_find?_eq_some hf
    rw [← h]
    exact List.mem_map_of_mem Prod.snd hmem

lemma bfsLoop_some_reachable (adjFun : Nat → List Nat) (s e : Nat) :
    ∀ fuel queue visited d,
      (∀ q ∈ queue, ZoneReachable adjFun s q.1) →
      bfsLoop adjFun e fuel queue visited = some d →
      ZoneReachable adjFun s e := by
  intro fuel
  induction fuel with
  | zero =>
    intro queue visited d _ h
    rw [bfsLoop_zero] at h
    cases h
  | succ n ih =>
    intro queue visited d hq h
    match queue with
    | [] =>
      rw [bfsLoop_nil] at h
      cases h
    | (c, dist) :: rest =>
      rw [bfsLoop_cons] at h
      by_cases he : e ∈ adjFun c
      · exact Relation.ReflTransGen.tail
          (hq (c, dist) (List.mem_cons_self _ _)) he
      · rw [if_neg he] at h
        refine ih _ _ _ ?_ h
        intro q hqmem
        rcases List.mem_append.mp hqmem with h1 | h2
        · exact hq q (List.mem_cons_of_mem _ h1)
        · simp only [List.mem_map] at h2
          obtain ⟨nnode, hn, rfl⟩ := h2
          exact Relation.ReflTransGen.tail
            (hq (c, dist) (List.mem_cons_self _ _))
            (List.mem_of_mem_filter hn)

lemma not_zoneReachable_of_closed (adjFun : Nat → List Nat) (S : List Nat)
    (s e : Nat) (hs : s ∈ S) (he : e ∉ S)
    (hclosed : ∀ x ∈ S, ∀ y ∈ adjFun x, y ∈ S) :
    ¬ ZoneReachable adjFun s e := by
  have key : ∀ b, Relation.ReflTransGen (fun x y => y ∈ adjFun x) s b →
      b ∈ S := by
    intro b hb
    induction hb with
    | refl => exact hs
    | tail h1 h2 ih => exact hclosed _ ih _ h2
  exact fun h => he (key e h)

/-- Claim C5: zone distance is 0 for a zone against itself; 1 between the
endpoints of a stored adjacency; 2 along the concrete two-edge chain; and
`none` whenever the two zones are disconnected under the session-scoped
neighbour relation. -/
theorem get_zone_distance_spec :
    (∀ db gid zn zid,
       assocLookup (name_to_id db gid) (strLower zn) = some zid →
       get_zone_distance db gid zn zn = some 0) ∧
    (∀ db gid na nb s e row,
       assocLookup (name_to_id db gid) (strLower na) = some s →
       assocLookup (name_to_id db gid) (strLower nb) = some e →
       s ≠ e → row ∈ db.adjacencies →
       ((row.zone_a_id = s ∧ row.zone_b_id = e) ∨
        (row.zone_b_id = s ∧ row.zone_a_id = e)) →
       get_zone_distance db gid na nb = some 1) ∧
    (get_zone_distance zoneDB 1 "cave" "pit" = some 2) ∧
    (∀ db gid na nb s e,
       assocLookup (name_to_id db gid) (strLower na) = some s →
       assocLookup (name_to_id db gid) (strLower nb) = some e →
       s ≠ e →
       ¬ ZoneReachable
           (zoneNeighbors db ((name_to_id db gid).map Prod.snd)) s e →
       get_zone_distance db gid na nb = none) := by
  refine ⟨?_, ?_, by decide, ?_⟩
  · intro db gid zn zid h
    simp [get_zone_distance, h]
  · intro db gid na nb s e row ha hb hne hrow hends
    have hbeq : (s == e) = false := by simpa using hne
    have hmemn : e ∈ zoneNeighbors db ((name_to_id db gid).map Prod.snd) s :=
      mem_addNeighbors_of_edge _ s e
        (assocLookup_mem_values _ _ _ hb) db.adjacencies [] row hrow hends
    simp only [get_zone_distance, ha, hb, hbeq, Bool.false_eq_true, if_false]
    rw [bfsLoop_cons, if_pos hmemn]
  · intro db gid na nb s e ha hb hne hnr
    have hbeq : (s == e) = false := by simpa using hne
    simp only [get_zone_distance, ha, hb, hbeq, Bool.false_eq_true, if_false]
    cases hbfs : bfsLoop
        (zoneNeighbors db ((name_to_id db gid).map Prod.snd)) e
        (((name_to_id db gid).map Prod.snd).length + 1) [(s, 0)] [s] with
    | none => rfl
    | some dd =>
      exfalso
      refine hnr (bfsLoop_some_reachable _ s e _ _ _ dd ?_ hbfs)
      intro q hq
      simp only [List.mem_singleton] at hq
      subst hq
      exact Relation.ReflTransGen.refl

/-- Witness for C5 on the concrete zone graph: reflexive distance 0,
adjacent distance 1, and `none` for the isolated zone. -/
theorem get_zone_distance_spec_witness :
    get_zone_distance zoneDB 1 "cave" "cave" = some 0 ∧
    get_zone_distance zoneDB 1 "cave" "hall" = some 1 ∧
    get_zone_distance zoneDB 1 "cave" "isle" = none :=
  ⟨get_zone_distance_spec.1 zoneDB 1 "cave" 1 rfl,
   get_zone_distance_spec.2.1 zoneDB 1 "cave" "hall" 1 2 ⟨5, 1, 2⟩
     rfl rfl (by decide) (by decide) (Or.inl ⟨rfl, rfl⟩),
   get_zone_distance_spec.2.2.2 zoneDB 1 "cave" "isle" 1 4 rfl rfl
     (by decide)
     (not_zoneReachable_of_closed _ [1, 2, 3] 1 4 (by decide) (by decide)
       (by decide))⟩

/- ===================== C3: roll-before-damage retry ===================== -/

/-- Claim C3 counterexample: two concrete traces in which `apply_damage`
runs without a prior `roll_dice` — stated both transparently (some
position holds an `apply_damage` tool message with no `roll_dice` tool
message anywhere before it) and through the encoded predicate — yet the
orchestrator performs no retry at all: the sent-message log is exactly
`["act"]`, one invocation, where the claim demands exactly one retry
(two invocations).  In the first trace the cycle also requested
clarification, which suppresses the retry; in the second a `roll_dice`
call occurs after the damage, and the code checks only presence, not
order. -/
theorem dice_retry_claim_counterexample :
    (∃ i, cexTraceClarify.get? i = some (.tool "apply_damage") ∧
       ∀ j < i, cexTraceClarify.get? j ≠ some (.tool "roll_dice")) ∧
    specDamageWithoutPriorRoll cexTraceClarify = true ∧
    invoke_dm_conversational (fun _ => .ok cexTraceClarify) "act" =
      .ok (⟨false, "Which target?"⟩, ["act"]) ∧
    (∃ i, cexTraceOrder.get? i = some (.tool "apply_damage") ∧
       ∀ j < i, cexTraceOrder.get? j ≠ some (.tool "roll_dice")) ∧
    specDamageWithoutPriorRoll cexTraceOrder = true ∧
    invoke_dm_conversational (fun _ => .ok cexTraceOrder) "act" =
      .ok (⟨true, "A solid hit!"⟩, ["act"]) :=
  ⟨⟨0, rfl, fun j hj => absurd hj (Nat.not_lt_zero j)⟩, rfl, rfl,
   ⟨0, rfl, fun j hj => absurd hj (Nat.not_lt_zero j)⟩, rfl, rfl⟩

/-- Claim C3 (amended): the enforcement retry fires exactly when the
first trace contains `apply_damage`, contains no `roll_dice` anywhere
(order is not inspected), and did not request clarification; in that
case the agent is re-invoked exactly once with `DICE_RETRY_MESSAGE`
appended and the second outcome is accepted unconditionally; otherwise
no retry happens; and no cycle ever sends more than two invocations. -/
theorem dice_retry_amended (f : String → List AgentMsg) (message : String) :
    (clarificationRequested (f message) = false →
     needs_dice_retry (f message) = true →
     invoke_dm_conversational (fun m => .ok (f m)) message =
       .ok (⟨!(clarificationRequested
                 (f (message ++ "\n\n" ++ DICE_RETRY_MESSAGE))),
             extractText (f (message ++ "\n\n" ++ DICE_RETRY_MESSAGE))⟩,
            [message, message ++ "\n\n" ++ DICE_RETRY_MESSAGE])) ∧
    (clarificationRequested (f message) = true ∨
       needs_dice_retry (f message) = false →
     invoke_dm_conversational (fun m => .ok (f m)) message =
       .ok (⟨!(clarificationRequested (f message)), extractText (f message)⟩,
            [message])) ∧
    (∀ r log, invoke_dm_conversational (fun m => .ok (f m)) message =
       .ok (r, log) → log.length ≤ 2) := by
  refine ⟨?_, ?_, ?_⟩
  · intro h1 h2
    simp [invoke_dm_conversational, h1, h2]
  · intro h
    rcases h with h | h
    · simp [invoke_dm_conversational, h]
    · simp [invoke_dm_conversational, h]
  · intro r log h
    by_cases hc : (!(clarificationRequested (f message)) &&
        needs_dice_retry (f message)) = true
    · simp only [invoke_dm_conversational, hc, if_true, Except.ok.injEq,
        Prod.mk.injEq] at h
      rw [← h.2]
      simp
    · simp only [invoke_dm_conversational, hc, Bool.false_eq_true, if_false,
        Except.ok.injEq, Prod.mk.injEq] at h
      rw [← h.2]
      simp

/-- Witness for C3 (amended): a trace with damage but no dice triggers
exactly one retry with the corrective instruction appended, and the
retry outcome is accepted. -/
theorem dice_retry_amended_witness :
    invoke_dm_conversational (fun m => .ok (retryAgentTrace m)) "act" =
      .ok (⟨true, "Rolled and resolved"⟩,
           ["act", "act" ++ "\n\n" ++ DICE_RETRY_MESSAGE]) :=
  (dice_retry_amended retryAgentTrace "act").1 rfl rfl

/- ===================== C4: clarification exchange cap ===================== -/

lemma aiClarificationLoop_count_le (oracle : Nat → DMResponse) :
    ∀ fuel resp count,
      (aiClarificationLoop oracle resp count fuel).2 ≤ count + fuel := by
  intro fuel
  induction fuel with
  | zero =>
    intro resp count
    simp [aiClarificationLoop]
  | succ n ih =>
    intro resp count
    unfold aiClarificationLoop
    by_cases h : resp.resolved
    · rw [if_pos h]
      omega
    · rw [if_neg h]
      have := ih (oracle (count + 1)) (count + 1)
      omega

/-- Claim C4 counterexample: at the configured maximum exchange count
(25), with a capability that requests clarification on every invocation,
the clarification handler runs a further clarification round — the
stored exchange count advances to 26 — instead of forcing the cycle to
resolve. -/
theorem clarification_cap_counterexample :
    clarificationOutcomeCount
      (dnd_action_clarification stubbornAgent exDB exGame exAra "go on" 25) =
      some 26 := rfl

/-- Claim C4 (amended): the automated-player clarification loop is
hard-bounded — it always ends force-resolved after at most 3 exchanges,
and a capability that never resolves uses exactly 3; the human path,
once the exchange count reaches 25, only appends the forced-resolution
instruction to the prompt, and a capability that still requests
clarification obtains a further round with the count incremented. -/
theorem clarification_cap_amended :
    (∀ oracle initial,
       (auto_play_clarification oracle initial).1.resolved = true ∧
       (auto_play_clarification oracle initial).2 ≤ 3) ∧
    (auto_play_clarification (fun _ => ⟨false, "More?"⟩) ⟨false, "Q"⟩).2 = 3 ∧
    (∀ nm resp count, 25 ≤ count →
       continueMessage nm resp count =
         continueMessageBase nm resp ++ FORCE_RESOLVE_SUFFIX) ∧
    (∀ agent db g p resp count msgs,
       agent (continueMessage p.character_name resp count) = .ok msgs →
       clarificationRequested msgs = true →
       dnd_action_clarification agent db g p resp count =
         .awaiting
           (add_event
             (add_event db g.id g.turn_number EventType.player_clarification
               resp (some p.id))
             g.id g.turn_number EventType.dm_clarification
             (extractText msgs) none)
           (count + 1) (extractText msgs)) := by
  refine ⟨?_, rfl, ?_, ?_⟩
  · intro oracle initial
    constructor
    · unfold auto_play_clarification
      by_cases h : (aiClarificationLoop oracle initial 0 3).1.resolved
      · simp [h]
      · simp [h]
    · unfold auto_play_clarification
      have hle := aiClarificationLoop_count_le oracle 3 initial 0
      simpa using hle
  · intro nm resp count h
    unfold continueMessage
    rw [if_pos h]
  · intro agent db g p resp count msgs hagent hclar
    simp only [dnd_action_clarification, continue_player_action,
      invoke_dm_conversational, hagent, hclar, Bool.not_true,
      Bool.false_and, Bool.false_eq_true, if_false]

/-- Witness for C4 (amended): the automated loop force-resolves with a
never-resolving capability, and the forced-resolution suffix is appended
at exchange count 25. -/
theorem clarification_cap_amended_witness :
    (auto_play_clarification (fun _ => ⟨false, "More?"⟩)
      ⟨false, "Q"⟩).1.resolved = true ∧
    continueMessage "Ara" "go on" 25 =
      continueMessageBase "Ara" "go on" ++ FORCE_RESOLVE_SUFFIX :=
  ⟨(clarification_cap_amended.1 (fun _ => ⟨false, "More?"⟩) ⟨false, "Q"⟩).1,
   clarification_cap_amended.2.2.1 "Ara" "go on" 25 (by decide)⟩

/- ===================== C7: capability failure at the boundary ===================== -/

/-- Claim C7 counterexample: when the reasoning capability fails, the
error is caught and surfaced as "Error resolving action: ...", but the
session state is NOT left unchanged — the `player_action` event appended
at the start of the cycle persists, so the store differs from the
original. -/
theorem capability_error_counterexample :
    (handle_action_text (fun _ => .error "LLM timeout") exDB exGame exAra
        "attack the goblin").2 =
      BotReply.errorText "Error resolving action: LLM timeout" ∧
    (handle_action_text (fun _ => .error "LLM timeout") exDB exGame exAra
        "attack the goblin").1.events.length = exDB.events.length + 1 ∧
    (handle_action_text (fun _ => .error "LLM timeout") exDB exGame exAra
        "attack the goblin").1 ≠ exDB :=
  ⟨rfl, rfl, by decide⟩

/-- Claim C7 (amended): a capability failure is caught at the bot
boundary and surfaced as "Error resolving action: ..." with the
conversation ended; the only state change of the failed cycle is the
`player_action` audit event appended before the invocation — no
resolution, system, or clarification event is written by the
orchestrator for the unresolved cycle. -/
theorem capability_error_amended :
    ∀ agent db g p text e,
      agent (startActionMessage p.character_name
        (titleWord p.character_class) text) = .error e →
      start_player_action agent db g p text =
        (add_event db g.id g.turn_number EventType.player_action text
          (some p.id), .error e) ∧
      handle_action_text agent db g p text =
        (add_event db g.id g.turn_number EventType.player_action text
          (some p.id),
         .errorText ("Error resolving action: " ++ e)) := by
  intro agent db g p text e hfail
  have hstart : start_player_action agent db g p text =
      (add_event db g.id g.turn_number EventType.player_action text
        (some p.id), .error e) := by
    simp only [start_player_action, invoke_dm_conversational, hfail]
  exact ⟨hstart, by simp only [handle_action_text, hstart]⟩

/-- Witness for C7 (amended) with a concretely failing capability. -/
theorem capability_error_amended_witness :
    start_player_action (fun _ => .error "boom") exDB exGame exAra "flee" =
      (add_event exDB exGame.id exGame.turn_number EventType.player_action
        "flee" (some exAra.id), .error "boom") :=
  (capability_error_amended (fun _ => .error "boom") exDB exGame exAra
    "flee" "boom" rfl).1
